import Mathlib

/-!
# Shallow embedding of the portfolio site's animation / filter / hover core

This file embeds, as executable Lean definitions, the parts of the
repository's JavaScript that the specification's claims are about:

* the category filter module (`src/unnamed/part_001`): `filterCards` with its
  class toggle, per-card display-update timers and the deferred call into the
  animation system;
* the reveal animation module (`src/unnamed/part_004`, the final variant per
  the spec's design notes): `getGridColumns`, `applyStaggerDelays`,
  `handleIntersection`, `init` and `reinitialize`;
* the card hover module (`src/js/card-hover.js`): the parallax session,
  `animateParallax`, the mouse handlers and `updateCenteredCard`.

Timers are modelled explicitly: a `setTimeout` becomes a pending write with a
fire time, and the browser's single-threaded timer queue is modelled by
firing pending writes in order (all display timers use the same constant
delay, so fire order coincides with scheduling order for nondecreasing
scheduling times).  Pixel and second quantities are rationals.
-/

namespace Portfolio

/-! ## Category filter module (`src/unnamed/part_001`) -/

/-- `const ANIMATION_DURATION = 300` (milliseconds). -/
def ANIMATION_DURATION : Nat := 300

/-- One pending `setTimeout` display write scheduled by `filterCards`:
it fires at `fireAt` and sets `card.style.display` to `value`. -/
structure PendingWrite where
  fireAt : Nat
  value : String
deriving Repr, DecidableEq

/-- A project card as the filter module sees it: its `data-categories`
attribute (`card.dataset.categories`, absent ↦ `none`), whether its class
list contains `filter-hidden`, its current inline `style.display` (the empty
string is the cleared value), and the queue of display writes scheduled for
it, in scheduling order. -/
structure Card where
  categories : Option String
  hiddenClass : Bool
  display : String
  pendingWrites : List PendingWrite
deriving Repr, DecidableEq

/-- JavaScript `String.prototype.split(' ')` at the character level: split on
every single space character, keeping empty chunks (so `"a  b".split(' ')`
is `["a", "", "b"]`). -/
def splitSpaceChars : List Char → List (List Char)
  | [] => [[]]
  | ch :: rest =>
    let r := splitSpaceChars rest
    if ch = ' ' then [] :: r
    else
      match r with
      | [] => [[ch]]
      | w :: ws => (ch :: w) :: ws

/-- `categories.split(' ')` for a Lean `String`. -/
def splitSpace (s : String) : List String :=
  (splitSpaceChars s.data).map (fun cs => String.mk cs)

/-- `const categoryList = categories.split(' ').filter(Boolean)` where
`categories = card.dataset.categories || ''`.  `filter(Boolean)` drops
exactly the empty strings (the only falsy strings) produced by repeated
separators. -/
def categoryList (c : Card) : List String :=
  (splitSpace (c.categories.getD "")).filter (fun s => s != "")

/-- `const shouldShow = filterValue === 'all' || categoryList.includes(filterValue)`. -/
def shouldShow (filterValue : String) (c : Card) : Bool :=
  filterValue == "all" || (categoryList c).contains filterValue

/-- The per-card body of `filterCards`, run at time `now`: toggle the
`filter-hidden` class synchronously and schedule a display write for
`now + ANIMATION_DURATION` (the `setTimeout` bodies `card.style.display = ''`
and `card.style.display = 'none'`).  The source never clears a previously
scheduled timer, so the write is appended to the card's queue. -/
def filterCardsOne (now : Nat) (filterValue : String) (c : Card) : Card :=
  if shouldShow filterValue c then
    { c with hiddenClass := false,
             pendingWrites := c.pendingWrites ++ [⟨now + ANIMATION_DURATION, ""⟩] }
  else
    { c with hiddenClass := true,
             pendingWrites := c.pendingWrites ++ [⟨now + ANIMATION_DURATION, "none"⟩] }

/-- Module-level state of the filter system: the cached `projectCards`, the
times at which the scheduled `window.AnimationSystem.reinitialize()` call
fires, and every custom DOM event the module dispatches document-wide.
The source contains no `dispatchEvent` call, so nothing ever appends to
`eventsDispatched`. -/
structure FilterModel where
  cards : List Card
  reinitAt : List Nat
  eventsDispatched : List String
deriving Repr, DecidableEq

/-- `filterCards(filterValue)` invoked at time `now`: transform every card
and schedule the deferred `window.AnimationSystem.reinitialize()` call
`ANIMATION_DURATION` milliseconds later (the final `setTimeout` of
`filterCards`).  No custom event is dispatched. -/
def filterCards (now : Nat) (filterValue : String) (m : FilterModel) : FilterModel :=
  { m with cards := m.cards.map (filterCardsOne now filterValue),
           reinitAt := m.reinitAt ++ [now + ANIMATION_DURATION] }

/-- The card's `style.display` once every pending write with fire time `≤ t`
has fired, in scheduling order (all writes use the same constant delay, so
for nondecreasing scheduling times this is also chronological order). -/
def displayAt (c : Card) (t : Nat) : String :=
  ((c.pendingWrites.filter (fun w => decide (w.fireAt ≤ t))).foldl
    (fun _ w => w.value) c.display)

/-- The card's `style.display` after every pending write has fired. -/
def finalDisplay (c : Card) : String :=
  c.pendingWrites.foldl (fun _ w => w.value) c.display

/-- Apply a sequence of filter applications `(time, filterValue)` to a card. -/
def applyFilterSeq (apps : List (Nat × String)) (c : Card) : Card :=
  apps.foldl (fun c p => filterCardsOne p.1 p.2 c) c

/-- Apply a sequence of filter applications to the whole filter module. -/
def filterSeq (apps : List (Nat × String)) (m : FilterModel) : FilterModel :=
  apps.foldl (fun m p => filterCards p.1 p.2 m) m

/-! ## Reveal animation module (`src/unnamed/part_004`)

Per the spec's design notes the repository holds several iterations of this
module; `src/unnamed/part_004` is the variant with the responsive modulo
stagger that the specification describes (`src/js/animations.js` is a
different iteration whose `applyStaggerDelays` only clears delays). -/

/-- The constant `0.1` in `const delay = columnIndex * 0.1` (seconds). -/
def STAGGER_STEP : ℚ := 1/10

/-- `getGridColumns()`: 3 columns for `width >= 1024`, 2 for `width >= 768`,
else 1, where `width = window.innerWidth`. -/
def getGridColumns (width : ℚ) : Nat :=
  if width ≥ 1024 then 3
  else if width ≥ 768 then 2
  else 1

/-- A child of the `.project-grid` container: its computed `display` and its
inline `transition-delay` (`none` is the cleared value `''`). -/
structure GridCard where
  display : String
  transitionDelay : Option ℚ
deriving Repr, DecidableEq

/-- `style.display !== 'none'`: the card occupies the grid. -/
def visibleCard (c : GridCard) : Bool := c.display != "none"

/-- The `visibleCards.forEach((card, visibleIndex) => ...)` loop of
`applyStaggerDelays`: walk the children in order, give the `k`-th *visible*
one the delay `(k % columns) * 0.1` and leave hidden children untouched.
In the source the loop runs over the filtered array `visibleCards`; since
its entries alias the grid's children, this is the same mutation. -/
def staggerLoop (columns : Nat) : Nat → List GridCard → List GridCard
  | _, [] => []
  | k, c :: cs =>
    if visibleCard c then
      { c with transitionDelay := some ((k % columns : Nat) * STAGGER_STEP) }
        :: staggerLoop columns (k + 1) cs
    else
      c :: staggerLoop columns k cs

/-- `applyStaggerDelays(grid)`: no-op on a missing grid; otherwise clear the
`transition-delay` of every child, then assign the stagger delays to the
visible children based on their visible index and the current column count. -/
def applyStaggerDelays (width : ℚ) : Option (List GridCard) → Option (List GridCard)
  | none => none
  | some allCards =>
    let columns := getGridColumns width
    let cleared := allCards.map (fun c => { c with transitionDelay := none })
    some (staggerLoop columns 0 cleared)

/-- An element carrying one of the six `anim-*` classes: whether its class
list contains `is-visible`, whether it is currently registered with the
module's `IntersectionObserver`, its computed `display`, whether its bounding
rectangle currently overlaps the viewport (`isInViewport`), and its inline
`opacity` / `transform` / `transition` styles (`none` is the unset value). -/
structure AnimElem where
  isVisibleClass : Bool
  observed : Bool
  display : String
  inViewport : Bool
  styleOpacity : Option String
  styleTransform : Option String
  styleTransition : Option String
deriving Repr, DecidableEq

/-- Module-level state of the animation system: the `anim-*` elements, the
`.project-grid` children (if the page has a grid), the viewport width, and
observer bookkeeping: whether an `IntersectionObserver` instance currently
exists, and how many have been constructed since page load. -/
structure AnimState where
  elems : List AnimElem
  grid : Option (List GridCard)
  width : ℚ
  observerLive : Bool
  observersCreated : Nat
deriving Repr, DecidableEq

/-- A fresh page: no observer has been constructed yet. -/
def mkAnimState (elems : List AnimElem) (grid : Option (List GridCard))
    (width : ℚ) : AnimState :=
  { elems := elems, grid := grid, width := width,
    observerLive := false, observersCreated := 0 }

/-- `init()` with `prefersReducedMotion = reduced`.  Reduced motion: add
`is-visible` to every `anim-*` element, set `opacity: 1; transform: none`,
and return before any observer is constructed.  Otherwise: stagger the grid,
reveal the elements already in the viewport instantly (their `transition`
is set to `'none'` and restored to `''` around the class change, so it ends
cleared), construct the observer and register every element that is still
not `is-visible`. -/
def init (reduced : Bool) (s : AnimState) : AnimState :=
  if reduced then
    { s with elems := s.elems.map (fun e =>
        { e with isVisibleClass := true,
                 styleOpacity := some "1",
                 styleTransform := some "none" }) }
  else
    let grid1 := applyStaggerDelays s.width s.grid
    let elems1 := s.elems.map (fun e =>
      if e.inViewport then { e with isVisibleClass := true, styleTransition := none }
      else e)
    let elems2 := elems1.map (fun e =>
      if !e.isVisibleClass then { e with observed := true } else e)
    { s with elems := elems2, grid := grid1,
             observerLive := true, observersCreated := s.observersCreated + 1 }

/-- `reinitialize()` from the source (the name is shortened here).  Reduced
motion: return immediately, leaving the state untouched.  Otherwise:
disconnect the current observer (unregistering everything), kill transitions
and remove `is-visible` everywhere, restagger the grid, and — across the two
`requestAnimationFrame` callbacks, collapsed here into one atomic update —
restore transitions, construct a new observer, and re-partition the elements
whose computed display is not `none` into instantly revealed (in viewport)
versus re-observed. -/
def reinit (reduced : Bool) (s : AnimState) : AnimState :=
  if reduced then s
  else
    let elems1 := s.elems.map (fun e =>
      { e with observed := false, styleTransition := some "none",
               isVisibleClass := false })
    let grid1 := applyStaggerDelays s.width s.grid
    let elems2 := elems1.map (fun e => { e with styleTransition := none })
    let elems3 := elems2.map (fun e =>
      if e.display != "none" then
        if e.inViewport then { e with isVisibleClass := true }
        else { e with observed := true }
      else e)
    { s with elems := elems3, grid := grid1,
             observerLive := true, observersCreated := s.observersCreated + 1 }

/-- In-place update of the element at index `i` (an `IntersectionObserver`
entry holds a reference to its target element). -/
def updateAt : Nat → (AnimElem → AnimElem) → List AnimElem → List AnimElem
  | _, _, [] => []
  | 0, f, e :: es => f e :: es
  | Nat.succ j, f, e :: es => e :: updateAt j f es

/-- The body applied to an intersecting entry's target:
`entry.target.classList.add('is-visible'); observer.unobserve(entry.target)`. -/
def revealElem (e : AnimElem) : AnimElem :=
  { e with isVisibleClass := true, observed := false }

/-- `handleIntersection(entries)`: for each entry whose `isIntersecting` is
true, add `is-visible` to its target and `observer.unobserve` it.  An entry
is modelled as the target's index paired with its `isIntersecting` flag. -/
def handleIntersection (es : List AnimElem) (entries : List (Nat × Bool)) :
    List AnimElem :=
  entries.foldl
    (fun es' entry =>
      if entry.2 then updateAt entry.1 revealElem es' else es')
    es

/-- A whole sequence of observer callback invocations, each with its own
entry batch. -/
def runCallbacks (batches : List (List (Nat × Bool))) (es : List AnimElem) :
    List AnimElem :=
  batches.foldl handleIntersection es

/-! ## Card hover module (`src/js/card-hover.js`) -/

/-- `const MAX_PARALLAX_OFFSET = 5` (px). -/
def MAX_PARALLAX_OFFSET : ℚ := 5

/-- `const lerpFactor = 0.15` inside `animateParallax`. -/
def lerpFactor : ℚ := 15/100

/-- The entry `activeCards.get(card)`: target and current parallax offsets
plus the stored animation-frame handle (`rafId`, modelled as present/absent). -/
structure ParallaxSession where
  targetX : ℚ
  targetY : ℚ
  currentX : ℚ
  currentY : ℚ
  rafId : Bool
deriving Repr, DecidableEq

/-- Per-card hover state: the `is-hovered` class, the card's `activeCards`
entry (absent when the pointer is not over the card), the `--parallax-x` /
`--parallax-y` custom properties on the `.card-image` layer (`none` means the
property is removed, i.e. the neutral offset), and whether the browser still
holds a pending animation-frame callback for this card. -/
structure HoverCard where
  hoverClass : Bool
  session : Option ParallaxSession
  appliedX : Option ℚ
  appliedY : Option ℚ
  rafScheduled : Bool
deriving Repr, DecidableEq

/-- One firing of the scheduled frame callback, i.e. `animateParallax(card)`.
The callback is no longer pending once it fires.  If the card has no session
the function returns at `if (!state) return`.  Otherwise it lerps the current
offset 15% toward the target, applies it, and either re-schedules (when a
remaining axis distance exceeds 0.01 px) or applies the target exactly and
clears `rafId`.  Note the source leaves `state.currentX/Y` at the lerped
value even when it snaps the *applied* offset to the target. -/
def animateParallax (c : HoverCard) : HoverCard :=
  let c := { c with rafScheduled := false }
  match c.session with
  | none => c
  | some st =>
    let cx := st.currentX + (st.targetX - st.currentX) * lerpFactor
    let cy := st.currentY + (st.targetY - st.currentY) * lerpFactor
    let dx := |st.targetX - cx|
    let dy := |st.targetY - cy|
    if dx > 1/100 ∨ dy > 1/100 then
      { c with session := some { st with currentX := cx, currentY := cy, rafId := true },
               appliedX := some cx, appliedY := some cy,
               rafScheduled := true }
    else
      { c with session := some { st with currentX := cx, currentY := cy, rafId := false },
               appliedX := some st.targetX, appliedY := some st.targetY }

/-- `handleMouseEnter(card)`: add the hover class and install a fresh session
with every offset at 0 and no animation frame. -/
def handleMouseEnter (c : HoverCard) : HoverCard :=
  { c with hoverClass := true,
           session := some { targetX := 0, targetY := 0,
                             currentX := 0, currentY := 0, rafId := false } }

/-- `handleMouseLeave(card)`: remove the hover class, cancel the pending
animation frame if the session holds one, remove the parallax custom
properties (`resetParallax`), and delete the card's `activeCards` entry. -/
def handleMouseLeave (c : HoverCard) : HoverCard :=
  let c := { c with hoverClass := false }
  let c :=
    match c.session with
    | some st => if st.rafId then { c with rafScheduled := false } else c
    | none => c
  { c with appliedX := none, appliedY := none, session := none }

/-- `handleMouseMove(card, event)`: no-op without a session; otherwise derive
the normalized offset of the pointer from the card center, scale by
`MAX_PARALLAX_OFFSET` and invert to get the target, and schedule an animation
frame when none is running. -/
def handleMouseMove (rectLeft rectTop rectWidth rectHeight clientX clientY : ℚ)
    (c : HoverCard) : HoverCard :=
  match c.session with
  | none => c
  | some st =>
    let centerX := rectWidth / 2
    let centerY := rectHeight / 2
    let mouseX := clientX - rectLeft
    let mouseY := clientY - rectTop
    let offsetX := (mouseX - centerX) / centerX
    let offsetY := (mouseY - centerY) / centerY
    let st := { st with targetX := offsetX * MAX_PARALLAX_OFFSET * (-1),
                        targetY := offsetY * MAX_PARALLAX_OFFSET * (-1) }
    if st.rafId then { c with session := some st }
    else { c with session := some { st with rafId := true }, rafScheduled := true }

/-- Run up to `n` animation frames: each step fires the pending callback if
one is scheduled, and stops as soon as none is. -/
def runParallax : Nat → HoverCard → HoverCard
  | 0, c => c
  | Nat.succ n, c => if c.rafScheduled then runParallax n (animateParallax c) else c

/-- The remaining distance to the target on the x axis (0 with no session). -/
def sessDeltaX (c : HoverCard) : ℚ :=
  match c.session with
  | some st => |st.targetX - st.currentX|
  | none => 0

/-- The remaining distance to the target on the y axis (0 with no session). -/
def sessDeltaY (c : HoverCard) : ℚ :=
  match c.session with
  | some st => |st.targetY - st.currentY|
  | none => 0

/-- The events that can hit a card between pointer-enter and pointer-leave:
a `mousemove` (with the card's bounding rectangle and the pointer position)
or the firing of the next animation frame. -/
inductive HoverMid where
  | move (rectLeft rectTop rectWidth rectHeight clientX clientY : ℚ)
  | frame
deriving Repr, DecidableEq

/-- Interpretation of a mid-hover event.  A frame only fires when one is
actually pending. -/
def midStep (c : HoverCard) : HoverMid → HoverCard
  | .move a b w h x y => handleMouseMove a b w h x y c
  | .frame => if c.rafScheduled then animateParallax c else c

/-! ### Mobile centered-card highlight (`updateCenteredCard`) -/

/-- A project card as `updateCenteredCard` sees it: the bounding rectangle's
`top` and `height` and whether the class list contains `is-centered`. -/
structure CenterCard where
  top : ℚ
  height : ℚ
  centered : Bool
deriving Repr, DecidableEq

/-- `Math.abs(viewportCenter - cardCenter)` with
`cardCenter = rect.top + rect.height / 2` and `viewportCenter = innerHeight / 2`. -/
def cardCenterDist (vh : ℚ) (c : CenterCard) : ℚ :=
  |vh / 2 - (c.top + c.height / 2)|

/-- The `projectCards.forEach` scan of `updateCenteredCard`: walk the cards
with their index, keeping the closest card seen so far.  `closestDistance`
starts at `Infinity`, modelled by the accumulator starting at `none` (every
finite distance beats it); the strict `<` keeps the first card attaining the
minimum. -/
def scanClosest (vh : ℚ) : Nat → Option (Nat × ℚ) → List CenterCard → Option (Nat × ℚ)
  | _, best, [] => best
  | i, best, c :: cs =>
    let d := cardCenterDist vh c
    let best' :=
      match best with
      | none => some (i, d)
      | some (_, dj) => if d < dj then some (i, d) else best
    scanClosest vh (i + 1) best' cs

/-- The final `projectCards.forEach` of `updateCenteredCard`:
`card.classList.toggle('is-centered', card === closestCard)`, with object
identity modelled by the index. -/
def markCentered (winner : Option Nat) : Nat → List CenterCard → List CenterCard
  | _, [] => []
  | i, c :: cs => { c with centered := winner == some i } :: markCentered winner (i + 1) cs

/-- `updateCenteredCard()`: return on an empty card list; otherwise find the
card whose center is closest to the viewport's vertical center and toggle
`is-centered` so that exactly that card carries it. -/
def updateCenteredCard (vh : ℚ) (cards : List CenterCard) : List CenterCard :=
  if cards.isEmpty then cards
  else markCentered ((scanClosest vh 0 none cards).map Prod.fst) 0 cards

/-! ## Helper lemmas -/

/-- `shouldShow` decides exactly the spec's visibility rule. -/
theorem shouldShow_iff (f : String) (c : Card) :
    shouldShow f c = true ↔ (f = "all" ∨ f ∈ categoryList c) := by
  simp [shouldShow, List.contains, List.elem_iff]

/-- `filterCards` only toggles the class and schedules writes; it never
touches `data-categories`. -/
theorem filterCardsOne_categories (t : Nat) (f : String) (c : Card) :
    (filterCardsOne t f c).categories = c.categories := by
  unfold filterCardsOne; split <;> rfl

/-- `shouldShow` only reads `data-categories`. -/
theorem shouldShow_congr (f : String) (c c' : Card)
    (h : c.categories = c'.categories) : shouldShow f c = shouldShow f c' := by
  simp [shouldShow, categoryList, h]

/-- A sequence of filter applications leaves the category attribute alone. -/
theorem applyFilterSeq_categories (apps : List (Nat × String)) (c : Card) :
    (applyFilterSeq apps c).categories = c.categories := by
  induction apps generalizing c with
  | nil => rfl
  | cons p apps ih =>
      simpa [applyFilterSeq, filterCardsOne_categories] using
        (ih (filterCardsOne p.1 p.2 c)).trans (filterCardsOne_categories p.1 p.2 c)

/-- The display writes accumulated by a sequence of filter applications:
one write per application, appended in order, each firing
`ANIMATION_DURATION` after its application and carrying that application's
intent for this card. -/
theorem applyFilterSeq_pendingWrites (apps : List (Nat × String)) (c : Card) :
    (applyFilterSeq apps c).pendingWrites
      = c.pendingWrites
        ++ apps.map (fun p =>
             ⟨p.1 + ANIMATION_DURATION, if shouldShow p.2 c then "" else "none"⟩) := by
  induction apps generalizing c with
  | nil => simp [applyFilterSeq]
  | cons p apps ih =>
      have hc : (filterCardsOne p.1 p.2 c).categories = c.categories :=
        filterCardsOne_categories p.1 p.2 c
      have hss : ∀ g : String,
          shouldShow g (filterCardsOne p.1 p.2 c) = shouldShow g c := fun g =>
        shouldShow_congr g _ _ hc
      have step : (filterCardsOne p.1 p.2 c).pendingWrites
          = c.pendingWrites ++
            [⟨p.1 + ANIMATION_DURATION, if shouldShow p.2 c then "" else "none"⟩] := by
        unfold filterCardsOne
        by_cases h : shouldShow p.2 c = true
        · simp [h]
        · simp [h]
      calc (applyFilterSeq (p :: apps) c).pendingWrites
      _ = (applyFilterSeq apps (filterCardsOne p.1 p.2 c)).pendingWrites := rfl
      _ = (filterCardsOne p.1 p.2 c).pendingWrites
            ++ apps.map (fun q =>
                 ⟨q.1 + ANIMATION_DURATION,
                  if shouldShow q.2 (filterCardsOne p.1 p.2 c) then "" else "none"⟩) :=
        ih (filterCardsOne p.1 p.2 c)
      _ = c.pendingWrites
            ++ (p :: apps).map (fun q =>
                 ⟨q.1 + ANIMATION_DURATION, if shouldShow q.2 c then "" else "none"⟩) := by
        simp [step, hss]

/-- Folding "take the write's value" over a queue ending in `w` returns
`w.value` (the last writer wins). -/
theorem foldl_value_last (l : List PendingWrite) (w : PendingWrite) (d : String) :
    (l ++ [w]).foldl (fun _ x => x.value) d = w.value := by
  simp [List.foldl_append]

/-! ## Claims -/

/-- **C1**  For every project card and every filter selection `f`, after
`applyFilter(f)` completes (including its display-update window) the card is
visible iff `f = "all"` or `f` is in the card's space-separated category tag
set; all other cards end with `display: none`.  `filterCards` maps the
per-card transform over every cached card, and for a card with no stale
timers the display once its write fires is `''` exactly under the rule, and
`'none'` otherwise (with the `filter-hidden` class toggled to match). -/
theorem applyFilter_visibility (m : FilterModel) (now : Nat) (f : String)
    (c0 : Card) (hc : c0.pendingWrites = []) :
    (filterCards now f m).cards = m.cards.map (filterCardsOne now f)
    ∧ (finalDisplay (filterCardsOne now f c0) ≠ "none"
        ↔ (f = "all" ∨ f ∈ categoryList c0))
    ∧ ((f = "all" ∨ f ∈ categoryList c0) →
        finalDisplay (filterCardsOne now f c0) = ""
        ∧ (filterCardsOne now f c0).hiddenClass = false)
    ∧ (¬(f = "all" ∨ f ∈ categoryList c0) →
        finalDisplay (filterCardsOne now f c0) = "none"
        ∧ (filterCardsOne now f c0).hiddenClass = true) := by
  refine ⟨rfl, ?_, ?_, ?_⟩ <;>
    by_cases h : shouldShow f c0 = true
  · rw [← shouldShow_iff, h]
    simp [finalDisplay, filterCardsOne, h, hc]
  · rw [← shouldShow_iff]
    simp only [h]
    simp [finalDisplay, filterCardsOne, h, hc]
  · intro _
    simp [finalDisplay, filterCardsOne, h, hc]
  · intro hor
    exact absurd ((shouldShow_iff f c0).mpr hor) h
  · intro hor
    exact absurd ((shouldShow_iff f c0).mp h) hor
  · intro _
    simp [finalDisplay, filterCardsOne, h, hc]

/-- Witness for `applyFilter_visibility` at a concrete card and filter. -/
theorem applyFilter_visibility_witness :
    (filterCards 7 "web" { cards := [], reinitAt := [], eventsDispatched := [] }).cards
        = ([] : List Card).map (filterCardsOne 7 "web")
    ∧ (finalDisplay (filterCardsOne 7 "web"
          { categories := some "web art", hiddenClass := false,
            display := "", pendingWrites := [] }) ≠ "none"
        ↔ ("web" = "all"
            ∨ "web" ∈ categoryList
                { categories := some "web art", hiddenClass := false,
                  display := "", pendingWrites := [] }))
    ∧ (("web" = "all"
          ∨ "web" ∈ categoryList
              { categories := some "web art", hiddenClass := false,
                display := "", pendingWrites := [] }) →
        finalDisplay (filterCardsOne 7 "web"
            { categories := some "web art", hiddenClass := false,
              display := "", pendingWrites := [] }) = ""
        ∧ (filterCardsOne 7 "web"
            { categories := some "web art", hiddenClass := false,
              display := "", pendingWrites := [] }).hiddenClass = false)
    ∧ (¬("web" = "all"
          ∨ "web" ∈ categoryList
              { categories := some "web art", hiddenClass := false,
                display := "", pendingWrites := [] }) →
        finalDisplay (filterCardsOne 7 "web"
            { categories := some "web art", hiddenClass := false,
              display := "", pendingWrites := [] }) = "none"
        ∧ (filterCardsOne 7 "web"
            { categories := some "web art", hiddenClass := false,
              display := "", pendingWrites := [] }).hiddenClass = true) :=
  applyFilter_visibility _ 7 "web" _ rfl

/-- **C6 — counterexample.**  The source never clears a previously scheduled
display timer, so pending timers are *not* superseded.  Concretely: a card
tagged `web` gets filter `other` applied at t = 0 (scheduling
`display = 'none'` for t = 300) and filter `web` applied at t = 100
(scheduling `display = ''` for t = 400).  At t = 300 the stale timer of the
superseded application has fired and the newer one has not: the card's
`filter-hidden` class is off and the most recent selection says the card is
shown (`shouldShow = true`), yet its display is `'none'` — a display state
inconsistent with the most recent filter selection, inside the window
between the class toggle and the final timer firing.  (The last component
shows the final display is `''` again once every timer has fired.) -/
theorem rapid_filter_inconsistent_window :
    ((filterCards 100 "web" (filterCards 0 "other"
        { cards := [{ categories := some "web", hiddenClass := false,
                      display := "", pendingWrites := [] }],
          reinitAt := [], eventsDispatched := [] })).cards.map
      (fun c => (c.hiddenClass, shouldShow "web" c, displayAt c 300, finalDisplay c)))
      = [(false, true, "none", "")] := by
  decide

/-- **C6 — amended.**  Pending display-update timers are *not* cancelled by a
newer filter application (the source keeps no timer handles), and a stale
timer can transiently set a card's display to a superseded filter's intent.
What does hold is eventual last-writer-wins: every display timer uses the
same `ANIMATION_DURATION` delay, so for applications at nondecreasing times
the newest application's write fires last, and once every pending timer has
fired the card's display and class match the most recent filter selection. -/
theorem rapid_filter_last_writer_eventually
    (apps : List (Nat × String)) (tl : Nat) (fl : String) (c0 : Card)
    (h0 : c0.pendingWrites = [])
    (hmono : ∀ p ∈ apps, p.1 ≤ tl)
    (t : Nat) (ht : tl + ANIMATION_DURATION ≤ t) :
    displayAt (applyFilterSeq (apps ++ [(tl, fl)]) c0) t
      = (if shouldShow fl c0 then "" else "none")
    ∧ (applyFilterSeq (apps ++ [(tl, fl)]) c0).hiddenClass = !shouldShow fl c0 := by
  constructor
  · have hw := applyFilterSeq_pendingWrites (apps ++ [(tl, fl)]) c0
    rw [displayAt, hw, h0]
    have hall : ∀ w ∈ (apps ++ [(tl, fl)]).map (fun p =>
        (⟨p.1 + ANIMATION_DURATION,
          if shouldShow p.2 c0 then "" else "none"⟩ : PendingWrite)),
        decide (w.fireAt ≤ t) = true := by
      intro w hwmem
      rcases List.mem_map.mp hwmem with ⟨p, hp, rfl⟩
      rcases List.mem_append.mp hp with hp | hp
      · exact decide_eq_true
          (le_trans (Nat.add_le_add_right (hmono p hp) ANIMATION_DURATION) ht)
      · rcases List.mem_singleton.mp hp with rfl
        exact decide_eq_true ht
    rw [List.nil_append, List.filter_eq_self.mpr hall, List.map_append]
    exact foldl_value_last _ _ _
  · have : applyFilterSeq (apps ++ [(tl, fl)]) c0
        = filterCardsOne tl fl (applyFilterSeq apps c0) := by
      simp [applyFilterSeq, List.foldl_append]
    rw [this]
    have hcat : shouldShow fl (applyFilterSeq apps c0) = shouldShow fl c0 :=
      shouldShow_congr fl _ _ (applyFilterSeq_categories apps c0)
    unfold filterCardsOne
    by_cases h : shouldShow fl (applyFilterSeq apps c0) = true
    · simp [h, hcat.symm.trans h]
    · rw [if_neg h]
      have : shouldShow fl c0 = false := by
        rw [← hcat]; exact Bool.eq_false_iff.mpr h
      simp [this]

/-- Witness for `rapid_filter_last_writer_eventually`: the rapid sequence of
the counterexample, evaluated after all timers fire. -/
theorem rapid_filter_last_writer_eventually_witness :
    displayAt (applyFilterSeq ([(0, "other")] ++ [(100, "web")])
        { categories := some "web", hiddenClass := false,
          display := "", pendingWrites := [] }) 400
      = (if shouldShow "web"
            ({ categories := some "web", hiddenClass := false,
               display := "", pendingWrites := [] } : Card) then "" else "none")
    ∧ (applyFilterSeq ([(0, "other")] ++ [(100, "web")])
        { categories := some "web", hiddenClass := false,
          display := "", pendingWrites := [] }).hiddenClass
      = !shouldShow "web"
          ({ categories := some "web", hiddenClass := false,
             display := "", pendingWrites := [] } : Card) :=
  rapid_filter_last_writer_eventually [(0, "other")] 100 "web" _ rfl
    (by intro p hp; rcases List.mem_singleton.mp hp with rfl; decide) 400 (by decide)

/-- **C7 — counterexample.**  A single filter application at t = 0: the
deferred `reinitialize` call fires at `ANIMATION_DURATION` (300 ms) — the
*same* delay as the display-property updates, not after a further equal
delay (600 ms) — and the module dispatches no document-wide event at all
(`eventsDispatched` stays empty: the source contains no `dispatchEvent`),
so no `"filterChanged"` notification ever triggers the reinitialization. -/
theorem filter_reinit_not_via_event :
    ((filterCards 0 "all"
        { cards := [{ categories := some "web", hiddenClass := false,
                      display := "", pendingWrites := [] }],
          reinitAt := [], eventsDispatched := [] }).reinitAt = [ANIMATION_DURATION])
    ∧ ((filterCards 0 "all"
        { cards := [{ categories := some "web", hiddenClass := false,
                      display := "", pendingWrites := [] }],
          reinitAt := [], eventsDispatched := [] }).reinitAt ≠ [2 * ANIMATION_DURATION])
    ∧ ¬ ("filterChanged" ∈ (filterCards 0 "all"
        { cards := [{ categories := some "web", hiddenClass := false,
                      display := "", pendingWrites := [] }],
          reinitAt := [], eventsDispatched := [] }).eventsDispatched) := by
  refine ⟨rfl, ?_, ?_⟩ <;> decide

/-- **C7 — amended.**  During every filter application the reveal resync is a
*direct* deferred call: `filterCards` schedules
`window.AnimationSystem.reinitialize()` exactly `ANIMATION_DURATION` (300 ms)
after the class toggle — the same window as the display-property updates —
and dispatches no custom event; across any run of the filter module the set
of document-wide events it has emitted stays empty (the animation module's
`filterChanged` listener is never fired by this module). -/
theorem filter_reinit_direct_call (m : FilterModel) (now : Nat) (f : String) :
    (filterCards now f m).reinitAt = m.reinitAt ++ [now + ANIMATION_DURATION]
    ∧ (filterCards now f m).eventsDispatched = m.eventsDispatched
    ∧ (∀ apps m0, m0.eventsDispatched = ([] : List String) →
        (filterSeq apps m0).eventsDispatched = []) := by
  refine ⟨rfl, rfl, ?_⟩
  intro apps
  induction apps with
  | nil => intro m0 h; exact h
  | cons p apps ih =>
      intro m0 h
      exact ih (filterCards p.1 p.2 m0) h

/-- Witness for `filter_reinit_direct_call` on a concrete run. -/
theorem filter_reinit_direct_call_witness :
    (filterCards 40 "art"
        { cards := [], reinitAt := [10], eventsDispatched := [] }).reinitAt
      = [10] ++ [40 + ANIMATION_DURATION]
    ∧ (filterCards 40 "art"
        { cards := [], reinitAt := [10], eventsDispatched := [] }).eventsDispatched
      = ([] : List String)
    ∧ (∀ apps m0, m0.eventsDispatched = ([] : List String) →
        (filterSeq apps m0).eventsDispatched = []) :=
  filter_reinit_direct_call { cards := [], reinitAt := [10], eventsDispatched := [] }
    40 "art"

/-- Assigning a transition delay does not change a card's `display`. -/
theorem visibleCard_delay (c : GridCard) (d : Option ℚ) :
    visibleCard { c with transitionDelay := d } = visibleCard c := rfl

/-- Clearing all delays commutes with restricting to the visible cards. -/
theorem filter_visible_clear (cs : List GridCard) :
    ((cs.map (fun c => { c with transitionDelay := none })).filter visibleCard)
      = (cs.filter visibleCard).map (fun c => { c with transitionDelay := none }) := by
  induction cs with
  | nil => rfl
  | cons c cs ih =>
      by_cases h : visibleCard c = true
      · rw [List.map_cons,
          List.filter_cons_of_pos (by rw [visibleCard_delay]; exact h),
          List.filter_cons_of_pos h, List.map_cons, ih]
      · rw [List.map_cons,
          List.filter_cons_of_neg (by rw [visibleCard_delay]; exact h),
          List.filter_cons_of_neg h, ih]

/-- The delays of the visible cards after the stagger loop, in order: the
`k`-th visible card (counting from the loop's starting index) gets
`(k % columns) * 0.1`. -/
theorem staggerLoop_visible_delays (columns : Nat) (cs : List GridCard) :
    ∀ k : Nat,
      ((staggerLoop columns k cs).filter visibleCard).map (fun c => c.transitionDelay)
        = (List.range' k ((cs.filter visibleCard).length)).map
            (fun j => some (((j % columns : Nat) : ℚ) * STAGGER_STEP)) := by
  induction cs with
  | nil => intro k; rfl
  | cons c cs ih =>
      intro k
      by_cases h : visibleCard c = true
      · rw [staggerLoop, if_pos h,
          List.filter_cons_of_pos (by rw [visibleCard_delay]; exact h),
          List.filter_cons_of_pos h, List.map_cons,
          List.length_cons, List.range'_succ, List.map_cons, ih (k + 1)]
      · rw [staggerLoop, if_neg h,
          List.filter_cons_of_neg (by exact h),
          List.filter_cons_of_neg h, ih k]

/-- A non-visible card passes through the stagger loop unchanged, so it is
still one of the input cards. -/
theorem staggerLoop_hidden_mem (columns : Nat) :
    ∀ (cs : List GridCard) (k : Nat) (c : GridCard),
      c ∈ staggerLoop columns k cs → visibleCard c = false → c ∈ cs := by
  intro cs
  induction cs with
  | nil => intro k c hc _; simp [staggerLoop] at hc
  | cons c0 cs ih =>
      intro k c hc hv
      by_cases h : visibleCard c0 = true
      · rw [staggerLoop, if_pos h, List.mem_cons] at hc
        rcases hc with hc | hc
        · exfalso
          have hvt : visibleCard c = true := by rw [hc, visibleCard_delay]; exact h
          rw [hvt] at hv; exact Bool.true_eq_false.mp hv
        · exact List.mem_cons_of_mem _ (ih (k + 1) c hc hv)
      · rw [staggerLoop, if_neg h, List.mem_cons] at hc
        rcases hc with hc | hc
        · exact hc ▸ List.mem_cons_self _ _
        · exact List.mem_cons_of_mem _ (ih k c hc hv)

/-- A card whose computed display is the empty (cleared) value is visible,
whatever its delay. -/
theorem visibleCard_blank (d : Option ℚ) :
    visibleCard { display := "", transitionDelay := d } = true := rfl

/-- **C2**  `applyStaggerDelays` is a no-op on a missing grid; on a grid it
gives the `k`-th *visible* child (visible index, not raw DOM index) the
transition delay `(k % columnCount) * 0.1` seconds and leaves every
non-visible child with its delay cleared; in particular five visible cards
at a width giving three columns receive `[0, 0.1, 0.2, 0, 0.1]` seconds. -/
theorem applyStaggerDelays_spec (width : ℚ) (cards : List GridCard) :
    applyStaggerDelays width none = none
    ∧ (((applyStaggerDelays width (some cards)).getD []).filter visibleCard).map
          (fun c => c.transitionDelay)
        = (List.range' 0 ((cards.filter visibleCard).length)).map
            (fun j => some (((j % getGridColumns width : Nat) : ℚ) * STAGGER_STEP))
    ∧ (∀ c ∈ (applyStaggerDelays width (some cards)).getD [],
        visibleCard c = false → c.transitionDelay = none)
    ∧ ((applyStaggerDelays 1200 (some
          [{ display := "", transitionDelay := some 1 },
           { display := "", transitionDelay := none },
           { display := "", transitionDelay := none },
           { display := "", transitionDelay := some 1 },
           { display := "", transitionDelay := none }])).getD []).map
          (fun c => c.transitionDelay)
        = [some 0, some (1/10), some (2/10), some 0, some (1/10)] := by
  refine ⟨rfl, ?_, ?_, ?_⟩
  · show ((staggerLoop (getGridColumns width) 0
        (cards.map (fun c => { c with transitionDelay := none }))).filter
          visibleCard).map (fun c => c.transitionDelay) = _
    rw [staggerLoop_visible_delays, filter_visible_clear, List.length_map]
  · intro c hc hv
    have hmem := staggerLoop_hidden_mem (getGridColumns width) _ 0 c hc hv
    rcases List.mem_map.mp hmem with ⟨c0, _, rfl⟩
    rfl
  · have h3 : getGridColumns 1200 = 3 := by
      unfold getGridColumns
      rw [if_pos (by norm_num)]
    simp only [applyStaggerDelays, h3, List.map_cons, List.map_nil,
      Option.getD_some, staggerLoop, visibleCard_blank, if_true]
    norm_num [STAGGER_STEP]

/-- Witness for `applyStaggerDelays_spec`: the hidden-card clause evaluated
on a grid with a hidden middle card. -/
theorem applyStaggerDelays_spec_witness :
    ({ display := "none", transitionDelay := none } : GridCard)
        ∈ (applyStaggerDelays 500 (some
            [{ display := "", transitionDelay := some 1 },
             { display := "none", transitionDelay := some (3/10) },
             { display := "", transitionDelay := none }])).getD []
    ∧ visibleCard ({ display := "none", transitionDelay := none } : GridCard) = false
    ∧ ({ display := "none", transitionDelay := none } : GridCard).transitionDelay
        = none := by
  have h := (applyStaggerDelays_spec 500
    [{ display := "", transitionDelay := some 1 },
     { display := "none", transitionDelay := some (3/10) },
     { display := "", transitionDelay := none }]).2.2.1
  have hmem : ({ display := "none", transitionDelay := none } : GridCard)
      ∈ (applyStaggerDelays 500 (some
          [{ display := "", transitionDelay := some 1 },
           { display := "none", transitionDelay := some (3/10) },
           { display := "", transitionDelay := none }])).getD [] := by
    have h1 : getGridColumns 500 = 1 := by
      unfold getGridColumns
      rw [if_neg (by norm_num), if_neg (by norm_num)]
    simp [applyStaggerDelays, h1, Option.getD_some, staggerLoop, visibleCard]
  exact ⟨hmem, rfl, h _ hmem rfl⟩

/-- **C3**  `getGridColumns` realises the three-tier breakpoint table:
1 column below 768 px, 2 columns in [768, 1024), 3 columns at or above
1024 px; resizing from 1400 px to 600 px changes the column count from 3 to
1, and a stagger application at the new width uses the new modulo (five
visible cards get all-zero delays at one column, versus the three-column
pattern at 1400 px). -/
theorem getGridColumns_spec (w : ℚ) :
    (w < 768 → getGridColumns w = 1)
    ∧ (768 ≤ w ∧ w < 1024 → getGridColumns w = 2)
    ∧ (1024 ≤ w → getGridColumns w = 3)
    ∧ getGridColumns 1400 = 3
    ∧ getGridColumns 600 = 1
    ∧ ((applyStaggerDelays 1400 (some
          [{ display := "", transitionDelay := none },
           { display := "", transitionDelay := none },
           { display := "", transitionDelay := none },
           { display := "", transitionDelay := none },
           { display := "", transitionDelay := none }])).getD []).map
          (fun c => c.transitionDelay)
        = [some 0, some (1/10), some (2/10), some 0, some (1/10)]
    ∧ ((applyStaggerDelays 600 (some
          [{ display := "", transitionDelay := none },
           { display := "", transitionDelay := none },
           { display := "", transitionDelay := none },
           { display := "", transitionDelay := none },
           { display := "", transitionDelay := none }])).getD []).map
          (fun c => c.transitionDelay)
        = [some 0, some 0, some 0, some 0, some 0] := by
  have h1400 : getGridColumns 1400 = 3 := by
    unfold getGridColumns; rw [if_pos (by norm_num)]
  have h600 : getGridColumns 600 = 1 := by
    unfold getGridColumns
    rw [if_neg (by norm_num), if_neg (by norm_num)]
  refine ⟨?_, ?_, ?_, h1400, h600, ?_, ?_⟩
  · intro h
    unfold getGridColumns
    rw [if_neg (by linarith), if_neg (by linarith)]
  · rintro ⟨h1, h2⟩
    unfold getGridColumns
    rw [if_neg (by linarith), if_pos (by exact_mod_cast h1)]
  · intro h
    unfold getGridColumns
    rw [if_pos (by exact_mod_cast h)]
  · simp only [applyStaggerDelays, h1400, List.map_cons, List.map_nil,
      Option.getD_some, staggerLoop, visibleCard_blank, if_true]
    norm_num [STAGGER_STEP]
  · simp only [applyStaggerDelays, h600, List.map_cons, List.map_nil,
      Option.getD_some, staggerLoop, visibleCard_blank, if_true]
    norm_num [STAGGER_STEP]

/-- Witness for `getGridColumns_spec`: each breakpoint clause discharged at a
concrete width. -/
theorem getGridColumns_spec_witness :
    getGridColumns 600 = 1 ∧ getGridColumns 800 = 2 ∧ getGridColumns 1400 = 3 :=
  ⟨(getGridColumns_spec 600).1 (by norm_num),
   (getGridColumns_spec 800).2.1 ⟨by norm_num, by norm_num⟩,
   (getGridColumns_spec 1400).2.2.1 (by norm_num)⟩

/-- Under reduced motion `reinitialize` returns before doing anything. -/
theorem reinit_reduced_noop (s : AnimState) : reinit true s = s := rfl

/-- **C4**  With the reduced-motion preference active, `init()` marks every
`anim-*` element revealed (`is-visible`) immediately and returns before any
`IntersectionObserver` is constructed, and `reinitialize()` is a no-op — on
every state, hence under every subsequent filter change.  Starting from a
fresh page, the observer-construction count stays 0 forever. -/
theorem reduced_motion_reveal (elems : List AnimElem)
    (grid : Option (List GridCard)) (width : ℚ) (n : Nat) :
    (∀ e ∈ (init true (mkAnimState elems grid width)).elems, e.isVisibleClass = true)
    ∧ (init true (mkAnimState elems grid width)).observersCreated = 0
    ∧ (init true (mkAnimState elems grid width)).observerLive = false
    ∧ (∀ s : AnimState, reinit true s = s)
    ∧ (reinit true)^[n] (init true (mkAnimState elems grid width))
        = init true (mkAnimState elems grid width)
    ∧ ((reinit true)^[n] (init true (mkAnimState elems grid width))).observersCreated
        = 0 := by
  have hiter : (reinit true)^[n] (init true (mkAnimState elems grid width))
      = init true (mkAnimState elems grid width) := by
    induction n with
    | zero => rfl
    | succ n ih => rw [Function.iterate_succ_apply, reinit_reduced_noop, ih]
  refine ⟨?_, by simp [init, mkAnimState], by simp [init, mkAnimState],
    reinit_reduced_noop, hiter, by rw [hiter]; simp [init, mkAnimState]⟩
  intro e he
  have : (init true (mkAnimState elems grid width)).elems
      = elems.map (fun e =>
          { e with isVisibleClass := true,
                   styleOpacity := some "1",
                   styleTransform := some "none" }) := rfl
  rw [this] at he
  rcases List.mem_map.mp he with ⟨e0, _, rfl⟩
  rfl

/-- Witness for `reduced_motion_reveal` on a one-element page. -/
theorem reduced_motion_reveal_witness :
    (∀ e ∈ (init true (mkAnimState
        [{ isVisibleClass := false, observed := false, display := "",
           inViewport := false, styleOpacity := none, styleTransform := none,
           styleTransition := none }] none 900)).elems, e.isVisibleClass = true)
    ∧ (init true (mkAnimState
        [{ isVisibleClass := false, observed := false, display := "",
           inViewport := false, styleOpacity := none, styleTransform := none,
           styleTransition := none }] none 900)).observersCreated = 0
    ∧ (init true (mkAnimState
        [{ isVisibleClass := false, observed := false, display := "",
           inViewport := false, styleOpacity := none, styleTransform := none,
           styleTransition := none }] none 900)).observerLive = false
    ∧ (∀ s : AnimState, reinit true s = s)
    ∧ (reinit true)^[2] (init true (mkAnimState
        [{ isVisibleClass := false, observed := false, display := "",
           inViewport := false, styleOpacity := none, styleTransform := none,
           styleTransition := none }] none 900))
        = init true (mkAnimState
        [{ isVisibleClass := false, observed := false, display := "",
           inViewport := false, styleOpacity := none, styleTransform := none,
           styleTransition := none }] none 900)
    ∧ ((reinit true)^[2] (init true (mkAnimState
        [{ isVisibleClass := false, observed := false, display := "",
           inViewport := false, styleOpacity := none, styleTransform := none,
           styleTransition := none }] none 900))).observersCreated = 0 :=
  reduced_motion_reveal _ none 900 2

/-- Pointwise description of `updateAt` via optional indexing. -/
theorem getq_updateAt (f : AnimElem → AnimElem) :
    ∀ (es : List AnimElem) (i j : Nat),
      (updateAt i f es)[j]? = (es[j]?).map (fun e => if j = i then f e else e) := by
  intro es
  induction es with
  | nil => intro i j; cases i <;> simp [updateAt]
  | cons e es ih =>
      intro i j
      cases i with
      | zero =>
          cases j with
          | zero => simp [updateAt]
          | succ j' =>
              simp only [updateAt, List.getElem?_cons_succ]
              cases es[j']? <;> simp [Nat.succ_ne_zero]
      | succ i' =>
          cases j with
          | zero => simp [updateAt, (Nat.succ_ne_zero i').symm]
          | succ j' =>
              simp only [updateAt, List.getElem?_cons_succ]
              rw [ih i' j']
              cases es[j']? <;> simp [Nat.succ_eq_add_one]

/-- `revealElem` is idempotent: revealing an already revealed element
changes nothing. -/
theorem revealElem_idem (e : AnimElem) : revealElem (revealElem e) = revealElem e := rfl

/-- Pointwise description of one observer callback: an element is revealed
and unregistered iff some intersecting entry targets it, and is untouched
otherwise. -/
theorem getq_handleIntersection :
    ∀ (entries : List (Nat × Bool)) (es : List AnimElem) (j : Nat),
      (handleIntersection es entries)[j]?
        = (es[j]?).map (fun e =>
            if entries.any (fun en => en.2 && en.1 == j) then revealElem e else e) := by
  intro entries
  induction entries with
  | nil =>
      intro es j
      show es[j]? = _
      cases es[j]? <;> simp
  | cons en entries ih =>
      intro es j
      show (handleIntersection (if en.2 then updateAt en.1 revealElem es else es)
        entries)[j]? = _
      by_cases hb : en.2 = true
      · rw [if_pos hb, ih, getq_updateAt, Option.map_map]
        cases hq : es[j]? with
        | none => rfl
        | some e =>
            simp only [Option.map_some', Function.comp_apply]
            by_cases hj : j = en.1
            · have hbeq : (en.1 == j) = true := by
                rw [beq_iff_eq]; exact hj.symm
              have hhead : ((en :: entries).any fun x => x.2 && x.1 == j) = true := by
                simp [List.any_cons, hb, hbeq]
              rw [if_pos hj, revealElem_idem, ite_self, hhead, if_pos rfl]
            · have hbeq : (en.1 == j) = false := by
                simp only [beq_eq_false_iff_ne, ne_eq]
                exact fun hc => hj hc.symm
              have hcons : ((en :: entries).any fun x => x.2 && x.1 == j)
                  = (entries.any fun x => x.2 && x.1 == j) := by
                simp [List.any_cons, hbeq]
              rw [if_neg hj, hcons]
      · rw [if_neg hb, ih]
        have hbf : en.2 = false := Bool.eq_false_iff.mpr hb
        cases hq : es[j]? with
        | none => rfl
        | some e => simp [List.any_cons, hbf]

/-- **C5**  Once the observer path has marked an element revealed it is
unregistered and stays revealed and unregistered under *any* further
sequence of intersection callbacks (no re-observation, no re-hiding by the
controller itself); moreover, in the very callback that reveals a
previously hidden element, the element ends unregistered.  Only an explicit
external `reinitialize()` can clear this. -/
theorem reveal_once (batches : List (List (Nat × Bool))) (es : List AnimElem)
    (i : Nat) (e : AnimElem) (he : es[i]? = some e)
    (hrev : e.isVisibleClass = true) (hobs : e.observed = false) :
    (∃ e', (runCallbacks batches es)[i]? = some e'
        ∧ e'.isVisibleClass = true ∧ e'.observed = false)
    ∧ (∀ (entries : List (Nat × Bool)) (es0 : List AnimElem) (j : Nat)
        (e0 e1 : AnimElem), es0[j]? = some e0 →
        (handleIntersection es0 entries)[j]? = some e1 →
        e1.isVisibleClass = true → e0.isVisibleClass = false →
        e1.observed = false) := by
  constructor
  · induction batches generalizing es e with
    | nil => exact ⟨e, he, hrev, hobs⟩
    | cons b batches ih =>
        show ∃ e', (runCallbacks batches (handleIntersection es b))[i]? = some e' ∧ _
        by_cases hany : b.any (fun en => en.2 && en.1 == i) = true
        · have h1 : (handleIntersection es b)[i]? = some (revealElem e) := by
            rw [getq_handleIntersection, he, Option.map_some', if_pos hany]
          exact ih (handleIntersection es b) (revealElem e) h1 rfl rfl
        · have h1 : (handleIntersection es b)[i]? = some e := by
            rw [getq_handleIntersection, he, Option.map_some', if_neg hany]
          exact ih (handleIntersection es b) e h1 hrev hobs
  · intro entries es0 j e0 e1 h0 h1 hvis1 hvis0
    rw [getq_handleIntersection, h0, Option.map_some'] at h1
    by_cases hany : entries.any (fun en => en.2 && en.1 == j) = true
    · rw [if_pos hany] at h1
      have he1 := (Option.some_inj.mp h1).symm
      rw [he1]; rfl
    · rw [if_neg hany] at h1
      have he01 : e0 = e1 := Option.some_inj.mp h1
      rw [← he01, hvis0] at hvis1
      exact absurd hvis1 (by simp)

/-- Witness for `reveal_once`: a two-element page whose first element was
revealed by the observer, then hit by further intersection callbacks. -/
theorem reveal_once_witness :
    ((([{ isVisibleClass := true, observed := false, display := "",
          inViewport := true, styleOpacity := none, styleTransform := none,
          styleTransition := none },
        { isVisibleClass := false, observed := true, display := "",
          inViewport := false, styleOpacity := none, styleTransform := none,
          styleTransition := none }] : List AnimElem)[0]?
        = some { isVisibleClass := true, observed := false, display := "",
                 inViewport := true, styleOpacity := none, styleTransform := none,
                 styleTransition := none })
    ∧ ((∃ e', (runCallbacks [[(0, true)], [(1, true), (0, true)]]
          [{ isVisibleClass := true, observed := false, display := "",
             inViewport := true, styleOpacity := none, styleTransform := none,
             styleTransition := none },
           { isVisibleClass := false, observed := true, display := "",
             inViewport := false, styleOpacity := none, styleTransform := none,
             styleTransition := none }])[0]? = some e'
          ∧ e'.isVisibleClass = true ∧ e'.observed = false)
        ∧ (∀ (entries : List (Nat × Bool)) (es0 : List AnimElem) (j : Nat)
            (e0 e1 : AnimElem), es0[j]? = some e0 →
            (handleIntersection es0 entries)[j]? = some e1 →
            e1.isVisibleClass = true → e0.isVisibleClass = false →
            e1.observed = false))) :=
  ⟨by decide,
   reveal_once [[(0, true)], [(1, true), (0, true)]]
    [{ isVisibleClass := true, observed := false, display := "",
       inViewport := true, styleOpacity := none, styleTransform := none,
       styleTransition := none },
     { isVisibleClass := false, observed := true, display := "",
       inViewport := false, styleOpacity := none, styleTransform := none,
       styleTransition := none }]
    0 { isVisibleClass := true, observed := false, display := "",
        inViewport := true, styleOpacity := none, styleTransform := none,
        styleTransition := none } (by decide) rfl rfl⟩

/-- One lerp step at blend fraction 0.15 leaves exactly 17/20 of the
remaining distance. -/
theorem abs_lerp (t x : ℚ) :
    |t - (x + (t - x) * lerpFactor)| = (17/20) * |t - x| := by
  have h : t - (x + (t - x) * lerpFactor) = (17/20) * (t - x) := by
    unfold lerpFactor; ring
  rw [h, abs_mul, abs_of_pos (by norm_num : (0:ℚ) < 17/20)]

/-- Unfolding `animateParallax` on a card with a live session. -/
theorem animateParallax_eq (c : HoverCard) (st : ParallaxSession)
    (hs : c.session = some st) :
    animateParallax c =
      (if |st.targetX - (st.currentX + (st.targetX - st.currentX) * lerpFactor)| > 1/100
          ∨ |st.targetY - (st.currentY + (st.targetY - st.currentY) * lerpFactor)| > 1/100
       then
        { c with
          session := some { st with
            currentX := st.currentX + (st.targetX - st.currentX) * lerpFactor,
            currentY := st.currentY + (st.targetY - st.currentY) * lerpFactor,
            rafId := true },
          appliedX := some (st.currentX + (st.targetX - st.currentX) * lerpFactor),
          appliedY := some (st.currentY + (st.targetY - st.currentY) * lerpFactor),
          rafScheduled := true }
       else
        { c with
          session := some { st with
            currentX := st.currentX + (st.targetX - st.currentX) * lerpFactor,
            currentY := st.currentY + (st.targetY - st.currentY) * lerpFactor,
            rafId := false },
          appliedX := some st.targetX, appliedY := some st.targetY,
          rafScheduled := false }) := by
  unfold animateParallax
  have hsession : ({ c with rafScheduled := false } : HoverCard).session = some st := hs
  rw [hsession]

/-- The session's remaining distance on the card, given the session. -/
theorem sessDeltaX_eq (c : HoverCard) (st : ParallaxSession)
    (hs : c.session = some st) : sessDeltaX c = |st.targetX - st.currentX| := by
  unfold sessDeltaX; rw [hs]

/-- The session's remaining distance on the card, given the session. -/
theorem sessDeltaY_eq (c : HoverCard) (st : ParallaxSession)
    (hs : c.session = some st) : sessDeltaY c = |st.targetY - st.currentY| := by
  unfold sessDeltaY; rw [hs]

/-- Each interpolation step multiplies the remaining distance on each axis
by exactly 17/20, whichever branch the step takes. -/
theorem sessDelta_step (c : HoverCard) (st : ParallaxSession)
    (hs : c.session = some st) :
    sessDeltaX (animateParallax c) = (17/20) * sessDeltaX c
    ∧ sessDeltaY (animateParallax c) = (17/20) * sessDeltaY c := by
  rw [animateParallax_eq c st hs, sessDeltaX_eq c st hs, sessDeltaY_eq c st hs]
  split
  · constructor
    · rw [sessDeltaX_eq _ _ rfl]; exact abs_lerp st.targetX st.currentX
    · rw [sessDeltaY_eq _ _ rfl]; exact abs_lerp st.targetY st.currentY
  · constructor
    · rw [sessDeltaX_eq _ _ rfl]; exact abs_lerp st.targetX st.currentX
    · rw [sessDeltaY_eq _ _ rfl]; exact abs_lerp st.targetY st.currentY

/-- Target preservation: a step never changes the session's target. -/
theorem animate_target (c : HoverCard) (st : ParallaxSession)
    (hs : c.session = some st) :
    ∃ st', (animateParallax c).session = some st'
      ∧ st'.targetX = st.targetX ∧ st'.targetY = st.targetY := by
  rw [animateParallax_eq c st hs]
  split
  · exact ⟨_, rfl, rfl, rfl⟩
  · exact ⟨_, rfl, rfl, rfl⟩

/-- With no pending frame the loop is over: nothing runs again. -/
theorem runParallax_stopped (c : HoverCard) (h : c.rafScheduled = false) :
    ∀ m, runParallax m c = c := by
  intro m
  cases m with
  | zero => rfl
  | succ m => simp [runParallax, h]

/-- If the budget `n + 1` of steps suffices to push both remaining
distances below the 0.01 px epsilon, the loop has stopped by then with the
target applied exactly. -/
theorem parallax_reaches :
    ∀ (n : Nat) (c : HoverCard) (st : ParallaxSession),
      c.session = some st → c.rafScheduled = true →
      (17/20) ^ (n+1) * sessDeltaX c ≤ 1/100 →
      (17/20) ^ (n+1) * sessDeltaY c ≤ 1/100 →
      (runParallax (n+1) c).rafScheduled = false
      ∧ (runParallax (n+1) c).appliedX = some st.targetX
      ∧ (runParallax (n+1) c).appliedY = some st.targetY := by
  intro n
  induction n with
  | zero =>
      intro c st hs hraf hx hy
      have h1 : runParallax 1 c = animateParallax c := by
        simp [runParallax, hraf]
      have hxe := sessDeltaX_eq c st hs
      have hye := sessDeltaY_eq c st hs
      rw [pow_one] at hx hy
      rw [hxe] at hx; rw [hye] at hy
      have hcond : ¬(|st.targetX - (st.currentX + (st.targetX - st.currentX) * lerpFactor)| > 1/100
          ∨ |st.targetY - (st.currentY + (st.targetY - st.currentY) * lerpFactor)| > 1/100) := by
        push_neg
        rw [abs_lerp, abs_lerp]
        exact ⟨hx, hy⟩
      rw [h1, animateParallax_eq c st hs, if_neg hcond]
      exact ⟨rfl, rfl, rfl⟩
  | succ n ih =>
      intro c st hs hraf hx hy
      have h1 : runParallax (n+1+1) c = runParallax (n+1) (animateParallax c) := by
        simp [runParallax, hraf]
      by_cases hcond : (|st.targetX - (st.currentX + (st.targetX - st.currentX) * lerpFactor)| > 1/100
          ∨ |st.targetY - (st.currentY + (st.targetY - st.currentY) * lerpFactor)| > 1/100)
      · -- the step re-schedules: spend the remaining budget on the new state
        have hstep := animateParallax_eq c st hs
        rw [if_pos hcond] at hstep
        have hs1 : (animateParallax c).session = some { st with
            currentX := st.currentX + (st.targetX - st.currentX) * lerpFactor,
            currentY := st.currentY + (st.targetY - st.currentY) * lerpFactor,
            rafId := true } := by rw [hstep]
        have hraf1 : (animateParallax c).rafScheduled = true := by rw [hstep]
        have hdx := (sessDelta_step c st hs).1
        have hdy := (sessDelta_step c st hs).2
        have hx1 : (17/20) ^ (n+1) * sessDeltaX (animateParallax c) ≤ 1/100 := by
          rw [hdx]
          calc (17/20 : ℚ) ^ (n+1) * ((17/20) * sessDeltaX c)
              = (17/20) ^ (n+1+1) * sessDeltaX c := by ring
            _ ≤ 1/100 := hx
        have hy1 : (17/20) ^ (n+1) * sessDeltaY (animateParallax c) ≤ 1/100 := by
          rw [hdy]
          calc (17/20 : ℚ) ^ (n+1) * ((17/20) * sessDeltaY c)
              = (17/20) ^ (n+1+1) * sessDeltaY c := by ring
            _ ≤ 1/100 := hy
        have hres := ih (animateParallax c) _ hs1 hraf1 hx1 hy1
        rw [h1]
        exact hres
      · -- the step snaps: the loop is already over
        have hstep := animateParallax_eq c st hs
        rw [if_neg hcond] at hstep
        have hstop : (animateParallax c).rafScheduled = false := by rw [hstep]
        rw [h1, runParallax_stopped _ hstop, hstep]
        exact ⟨rfl, rfl, rfl⟩

/-- **C8**  For a hovered card with a live session and a pending frame and a
fixed target: every interpolation step moves the offset 15% of the remaining
distance toward the target, leaving exactly 17/20 of each axis distance (so
the distance strictly decreases whenever it is nonzero); and in a bounded
number of steps both axis distances fall within the 0.01 px epsilon, at
which point the applied offset snaps exactly to the target, the stored
frame handle is cleared, and no further step runs. -/
theorem parallax_convergence (c : HoverCard) (st : ParallaxSession)
    (hs : c.session = some st) (hraf : c.rafScheduled = true) :
    (sessDeltaX (animateParallax c) = (17/20) * sessDeltaX c
      ∧ sessDeltaY (animateParallax c) = (17/20) * sessDeltaY c)
    ∧ (sessDeltaX c ≠ 0 → sessDeltaX (animateParallax c) < sessDeltaX c)
    ∧ (sessDeltaY c ≠ 0 → sessDeltaY (animateParallax c) < sessDeltaY c)
    ∧ ∃ n, (runParallax n c).rafScheduled = false
        ∧ (runParallax n c).appliedX = some st.targetX
        ∧ (runParallax n c).appliedY = some st.targetY
        ∧ ∀ m, runParallax m (runParallax n c) = runParallax n c := by
  have hstep := sessDelta_step c st hs
  have hxnn : 0 ≤ sessDeltaX c := by
    rw [sessDeltaX_eq c st hs]; exact abs_nonneg _
  have hynn : 0 ≤ sessDeltaY c := by
    rw [sessDeltaY_eq c st hs]; exact abs_nonneg _
  refine ⟨hstep, ?_, ?_, ?_⟩
  · intro hne
    rw [hstep.1]
    have hpos : 0 < sessDeltaX c := lt_of_le_of_ne hxnn (Ne.symm hne)
    nlinarith
  · intro hne
    rw [hstep.2]
    have hpos : 0 < sessDeltaY c := lt_of_le_of_ne hynn (Ne.symm hne)
    nlinarith
  · -- bounded number of steps
    have hbound : ∃ N : Nat, (17/20 : ℚ) ^ (N+1) * sessDeltaX c ≤ 1/100
        ∧ (17/20 : ℚ) ^ (N+1) * sessDeltaY c ≤ 1/100 := by
      set D := max (sessDeltaX c) (sessDeltaY c) with hD
      have hDnn : 0 ≤ D := le_trans hxnn (le_max_left _ _)
      rcases eq_or_lt_of_le hDnn with hD0 | hDpos
      · refine ⟨0, ?_, ?_⟩
        · have : sessDeltaX c ≤ D := le_max_left _ _
          nlinarith
        · have : sessDeltaY c ≤ D := le_max_right _ _
          nlinarith
      · have hε : (0:ℚ) < (1/100) / D := by positivity
        rcases exists_pow_lt_of_lt_one hε (by norm_num : (17/20 : ℚ) < 1) with ⟨k, hk⟩
        have hkD : (17/20 : ℚ) ^ k * D < 1/100 := (lt_div_iff₀ hDpos).mp hk
        refine ⟨k, ?_, ?_⟩
        · have h1 : (17/20 : ℚ) ^ (k+1) * sessDeltaX c ≤ (17/20 : ℚ) ^ k * D := by
            have hpk : (0:ℚ) ≤ (17/20 : ℚ) ^ k := by positivity
            have hle : sessDeltaX c ≤ D := le_max_left _ _
            calc (17/20 : ℚ) ^ (k+1) * sessDeltaX c
                = (17/20 : ℚ) ^ k * ((17/20) * sessDeltaX c) := by ring
              _ ≤ (17/20 : ℚ) ^ k * D := by nlinarith
          linarith
        · have h1 : (17/20 : ℚ) ^ (k+1) * sessDeltaY c ≤ (17/20 : ℚ) ^ k * D := by
            have hpk : (0:ℚ) ≤ (17/20 : ℚ) ^ k := by positivity
            have hle : sessDeltaY c ≤ D := le_max_right _ _
            calc (17/20 : ℚ) ^ (k+1) * sessDeltaY c
                = (17/20 : ℚ) ^ k * ((17/20) * sessDeltaY c) := by ring
              _ ≤ (17/20 : ℚ) ^ k * D := by nlinarith
          linarith
    rcases hbound with ⟨N, hx, hy⟩
    have hres := parallax_reaches N c st hs hraf hx hy
    exact ⟨N+1, hres.1, hres.2.1, hres.2.2,
      runParallax_stopped _ hres.1⟩

/-- Witness for `parallax_convergence`: a session targeting (−5, −5) from
the neutral offset with a pending frame. -/
theorem parallax_convergence_witness :
    (sessDeltaX (animateParallax
        { hoverClass := true,
          session := some { targetX := -5, targetY := -5,
                            currentX := 0, currentY := 0, rafId := true },
          appliedX := none, appliedY := none, rafScheduled := true })
        = (17/20) * sessDeltaX
        { hoverClass := true,
          session := some { targetX := -5, targetY := -5,
                            currentX := 0, currentY := 0, rafId := true },
          appliedX := none, appliedY := none, rafScheduled := true }
      ∧ sessDeltaY (animateParallax
        { hoverClass := true,
          session := some { targetX := -5, targetY := -5,
                            currentX := 0, currentY := 0, rafId := true },
          appliedX := none, appliedY := none, rafScheduled := true })
        = (17/20) * sessDeltaY
        { hoverClass := true,
          session := some { targetX := -5, targetY := -5,
                            currentX := 0, currentY := 0, rafId := true },
          appliedX := none, appliedY := none, rafScheduled := true })
    ∧ (sessDeltaX
        { hoverClass := true,
          session := some { targetX := -5, targetY := -5,
                            currentX := 0, currentY := 0, rafId := true },
          appliedX := none, appliedY := none, rafScheduled := true } ≠ 0 →
        sessDeltaX (animateParallax
        { hoverClass := true,
          session := some { targetX := -5, targetY := -5,
                            currentX := 0, currentY := 0, rafId := true },
          appliedX := none, appliedY := none, rafScheduled := true })
        < sessDeltaX
        { hoverClass := true,
          session := some { targetX := -5, targetY := -5,
                            currentX := 0, currentY := 0, rafId := true },
          appliedX := none, appliedY := none, rafScheduled := true })
    ∧ (sessDeltaY
        { hoverClass := true,
          session := some { targetX := -5, targetY := -5,
                            currentX := 0, currentY := 0, rafId := true },
          appliedX := none, appliedY := none, rafScheduled := true } ≠ 0 →
        sessDeltaY (animateParallax
        { hoverClass := true,
          session := some { targetX := -5, targetY := -5,
                            currentX := 0, currentY := 0, rafId := true },
          appliedX := none, appliedY := none, rafScheduled := true })
        < sessDeltaY
        { hoverClass := true,
          session := some { targetX := -5, targetY := -5,
                            currentX := 0, currentY := 0, rafId := true },
          appliedX := none, appliedY := none, rafScheduled := true })
    ∧ ∃ n, (runParallax n
        { hoverClass := true,
          session := some { targetX := -5, targetY := -5,
                            currentX := 0, currentY := 0, rafId := true },
          appliedX := none, appliedY := none, rafScheduled := true }).rafScheduled = false
        ∧ (runParallax n
        { hoverClass := true,
          session := some { targetX := -5, targetY := -5,
                            currentX := 0, currentY := 0, rafId := true },
          appliedX := none, appliedY := none, rafScheduled := true }).appliedX = some (-5)
        ∧ (runParallax n
        { hoverClass := true,
          session := some { targetX := -5, targetY := -5,
                            currentX := 0, currentY := 0, rafId := true },
          appliedX := none, appliedY := none, rafScheduled := true }).appliedY = some (-5)
        ∧ ∀ m, runParallax m (runParallax n
        { hoverClass := true,
          session := some { targetX := -5, targetY := -5,
                            currentX := 0, currentY := 0, rafId := true },
          appliedX := none, appliedY := none, rafScheduled := true })
          = runParallax n
        { hoverClass := true,
          session := some { targetX := -5, targetY := -5,
                            currentX := 0, currentY := 0, rafId := true },
          appliedX := none, appliedY := none, rafScheduled := true } :=
  parallax_convergence _
    { targetX := -5, targetY := -5, currentX := 0, currentY := 0, rafId := true }
    rfl rfl

/-- Unfolding `handleMouseMove` on a card with a live session. -/
theorem handleMouseMove_eq (a b w h x y : ℚ) (c : HoverCard)
    (st : ParallaxSession) (hs : c.session = some st) :
    handleMouseMove a b w h x y c =
      (if st.rafId
       then
        { c with
          session := some { st with
            targetX := (x - a - w / 2) / (w / 2) * MAX_PARALLAX_OFFSET * (-1),
            targetY := (y - b - h / 2) / (h / 2) * MAX_PARALLAX_OFFSET * (-1) } }
       else
        { c with
          session := some { st with
            targetX := (x - a - w / 2) / (w / 2) * MAX_PARALLAX_OFFSET * (-1),
            targetY := (y - b - h / 2) / (h / 2) * MAX_PARALLAX_OFFSET * (-1),
            rafId := true },
          rafScheduled := true }) := by
  simp only [handleMouseMove, hs]

/-- Invariant of a live hover: the stored `rafId` handle agrees with the
browser-side pending frame flag.  Every mid-hover event preserves it. -/
theorem midStep_inv (ev : HoverMid) (c : HoverCard) (st : ParallaxSession)
    (hs : c.session = some st) (hC : c.rafScheduled = st.rafId) :
    ∃ st', (midStep c ev).session = some st'
      ∧ (midStep c ev).rafScheduled = st'.rafId := by
  cases ev with
  | move a b w h x y =>
      show ∃ st', (handleMouseMove a b w h x y c).session = some st'
        ∧ (handleMouseMove a b w h x y c).rafScheduled = st'.rafId
      rw [handleMouseMove_eq a b w h x y c st hs]
      cases hr : st.rafId with
      | true =>
          rw [if_pos rfl]
          exact ⟨_, rfl, hC.trans hr⟩
      | false =>
          rw [if_neg Bool.false_ne_true]
          exact ⟨_, rfl, rfl⟩
  | frame =>
      cases hraf : c.rafScheduled with
      | false =>
          have hmid : midStep c HoverMid.frame = c := by
            simp [midStep, hraf]
          exact ⟨st, by rw [hmid]; exact hs, by rw [hmid]; exact hC⟩
      | true =>
          have hmid : midStep c HoverMid.frame = animateParallax c := by
            simp [midStep, hraf]
          rw [hmid, animateParallax_eq c st hs]
          split
          · exact ⟨_, rfl, rfl⟩
          · exact ⟨_, rfl, rfl⟩

/-- The invariant survives any sequence of mid-hover events. -/
theorem foldl_midStep_inv (mids : List HoverMid) :
    ∀ (c : HoverCard) (st : ParallaxSession),
      c.session = some st → c.rafScheduled = st.rafId →
      ∃ st', (mids.foldl midStep c).session = some st'
        ∧ (mids.foldl midStep c).rafScheduled = st'.rafId := by
  induction mids with
  | nil => intro c st hs hC; exact ⟨st, hs, hC⟩
  | cons ev mids ih =>
      intro c st hs hC
      rcases midStep_inv ev c st hs hC with ⟨st', hs', hC'⟩
      exact ih (midStep c ev) st' hs' hC'

/-- `handleMouseLeave` on a card whose handle agrees with the pending-frame
flag: the session is destroyed, the parallax properties are removed, any
pending frame is cancelled and the hover class is dropped. -/
theorem leave_clean (c : HoverCard) (st : ParallaxSession)
    (hs : c.session = some st) (hC : c.rafScheduled = st.rafId) :
    (handleMouseLeave c).session = none
    ∧ (handleMouseLeave c).appliedX = none
    ∧ (handleMouseLeave c).appliedY = none
    ∧ (handleMouseLeave c).rafScheduled = false
    ∧ (handleMouseLeave c).hoverClass = false := by
  refine ⟨?_, ?_, ?_, ?_, ?_⟩ <;> cases hr : st.rafId <;>
    simp [handleMouseLeave, hs, hr, hC]

/-- **C9**  For every hover interaction — pointer-enter, then any sequence
of pointer-moves and animation-frame firings (for instance one producing
target (−5, −5)), then pointer-leave — the leave handler leaves the card
with the image-layer parallax properties removed (the neutral (0, 0)
offset), no session, the hover class dropped, and no pending
animation-frame callback: any scheduled step has been cancelled.  The last
component checks the concrete (−5, −5) target of the spec's scenario. -/
theorem pointer_leave_resets (mids : List HoverMid) (ax ay : Option ℚ) :
    ((handleMouseLeave (mids.foldl midStep (handleMouseEnter
        { hoverClass := false, session := none, appliedX := ax, appliedY := ay,
          rafScheduled := false }))).session = none
    ∧ (handleMouseLeave (mids.foldl midStep (handleMouseEnter
        { hoverClass := false, session := none, appliedX := ax, appliedY := ay,
          rafScheduled := false }))).appliedX = none
    ∧ (handleMouseLeave (mids.foldl midStep (handleMouseEnter
        { hoverClass := false, session := none, appliedX := ax, appliedY := ay,
          rafScheduled := false }))).appliedY = none
    ∧ (handleMouseLeave (mids.foldl midStep (handleMouseEnter
        { hoverClass := false, session := none, appliedX := ax, appliedY := ay,
          rafScheduled := false }))).rafScheduled = false
    ∧ (handleMouseLeave (mids.foldl midStep (handleMouseEnter
        { hoverClass := false, session := none, appliedX := ax, appliedY := ay,
          rafScheduled := false }))).hoverClass = false)
    ∧ ((handleMouseMove 0 0 100 100 100 100 (handleMouseEnter
        { hoverClass := false, session := none, appliedX := ax, appliedY := ay,
          rafScheduled := false })).session.map
          (fun st => (st.targetX, st.targetY)) = some (-5, -5)) := by
  constructor
  · have hstart : (handleMouseEnter
        { hoverClass := false, session := none, appliedX := ax, appliedY := ay,
          rafScheduled := false } : HoverCard).session
        = some { targetX := 0, targetY := 0, currentX := 0, currentY := 0,
                 rafId := false } := rfl
    rcases foldl_midStep_inv mids _ _ hstart rfl with ⟨st', hs', hC'⟩
    exact leave_clean _ st' hs' hC'
  · show (Option.map _ (handleMouseMove 0 0 100 100 100 100 _).session) = _
    norm_num [handleMouseMove, handleMouseEnter, MAX_PARALLAX_OFFSET]

/-- Witness check note: `pointer_leave_resets` has no propositional
hypotheses — all binders range over data — so it needs no separate witness;
this instance nevertheless records a concrete evaluation. -/
theorem pointer_leave_resets_example :
    (handleMouseLeave ([HoverMid.move 0 0 100 100 100 100, HoverMid.frame].foldl
        midStep (handleMouseEnter
        { hoverClass := false, session := none, appliedX := none, appliedY := none,
          rafScheduled := false }))).session = none :=
  (pointer_leave_resets [HoverMid.move 0 0 100 100 100 100, HoverMid.frame]
    none none).1.1

/-- Pointwise description of the final toggle loop of `updateCenteredCard`:
the card at position `k` (list position, counting from the loop's starting
index `i`) carries `is-centered` afterwards iff the winner is index `i + k`. -/
theorem getq_markCentered (winner : Option Nat) :
    ∀ (cards : List CenterCard) (i j : Nat),
      (markCentered winner i cards)[j]?
        = (cards[j]?).map (fun c => { c with centered := winner == some (i + j) }) := by
  intro cards
  induction cards with
  | nil => intro i j; simp [markCentered]
  | cons c cs ih =>
      intro i j
      cases j with
      | zero => simp [markCentered]
      | succ j' =>
          have hcons : markCentered winner i (c :: cs)
              = { c with centered := winner == some i }
                :: markCentered winner (i + 1) cs := rfl
          rw [hcons, List.getElem?_cons_succ, List.getElem?_cons_succ, ih (i + 1) j']
          have harith : i + 1 + j' = i + (j' + 1) := by omega
          rw [harith]

/-- The toggle loop touches only the `is-centered` class, never the number
of cards. -/
theorem length_markCentered (winner : Option Nat) :
    ∀ (cards : List CenterCard) (i : Nat),
      (markCentered winner i cards).length = cards.length := by
  intro cards
  induction cards with
  | nil => intro i; rfl
  | cons c cs ih => intro i; simpa [markCentered] using ih (i + 1)

/-- Components of an equality of optional index-distance pairs. -/
theorem pair_some_inj {j0 j : Nat} {d0 d : ℚ}
    (h : (some (j0, d0) : Option (Nat × ℚ)) = some (j, d)) : j0 = j ∧ d0 = d := by
  simp only [Option.some.injEq, Prod.mk.injEq] at h
  exact h

/-- Invariants of the closest-card scan, generalized over the running index
and the best candidate so far: the result's distance is a lower bound for
every scanned card and for the incoming candidate, and the result is either
the incoming candidate or a scanned card's index (offset by the start) with
that card's distance. -/
theorem scanClosest_spec (vh : ℚ) :
    ∀ (cards : List CenterCard) (i : Nat) (best : Option (Nat × ℚ)),
      (scanClosest vh i best cards = none → cards = [] ∧ best = none)
      ∧ (∀ j d, scanClosest vh i best cards = some (j, d) →
          (∀ c ∈ cards, d ≤ cardCenterDist vh c)
          ∧ (∀ j0 d0, best = some (j0, d0) → d ≤ d0)
          ∧ (best = some (j, d)
             ∨ ∃ k ck, cards[k]? = some ck ∧ j = i + k ∧ d = cardCenterDist vh ck)) := by
  intro cards
  induction cards with
  | nil =>
      intro i best
      constructor
      · intro h; exact ⟨rfl, h⟩
      · intro j d h
        refine ⟨by simp, ?_, Or.inl h⟩
        intro j0 d0 hb
        rw [hb] at h
        obtain ⟨h1, h2⟩ := pair_some_inj h
        rw [h2]
  | cons c cs ih =>
      intro i best
      rcases best with _ | ⟨j0, d0⟩
      · -- closestDistance is still Infinity: the head card always wins
        have hstep : scanClosest vh i none (c :: cs)
            = scanClosest vh (i + 1) (some (i, cardCenterDist vh c)) cs := rfl
        constructor
        · intro h
          rw [hstep] at h
          rcases (ih (i + 1) (some (i, cardCenterDist vh c))).1 h with ⟨_, habs⟩
          exact absurd habs (by simp)
        · intro j d h
          rw [hstep] at h
          obtain ⟨A, B, C⟩ := (ih (i + 1) (some (i, cardCenterDist vh c))).2 j d h
          refine ⟨?_, ?_, ?_⟩
          · intro c2 hc2
            rcases List.mem_cons.mp hc2 with rfl | hc2
            · exact B i (cardCenterDist vh c2) rfl
            · exact A c2 hc2
          · intro j1 d1 hb; exact absurd hb (by simp)
          · rcases C with hC | ⟨k, ck, hk, hj, hd⟩
            · obtain ⟨h1, h2⟩ := pair_some_inj hC
              refine Or.inr ⟨0, c, by simp, by omega, h2.symm⟩
            · refine Or.inr ⟨k + 1, ck, ?_, by omega, hd⟩
              rw [List.getElem?_cons_succ]; exact hk
      · -- a best candidate exists: the head replaces it only when strictly closer
        have hstep : scanClosest vh i (some (j0, d0)) (c :: cs)
            = scanClosest vh (i + 1)
                (if cardCenterDist vh c < d0
                 then some (i, cardCenterDist vh c) else some (j0, d0)) cs := rfl
        by_cases hlt : cardCenterDist vh c < d0
        · rw [if_pos hlt] at hstep
          constructor
          · intro h
            rw [hstep] at h
            rcases (ih (i + 1) (some (i, cardCenterDist vh c))).1 h with ⟨_, habs⟩
            exact absurd habs (by simp)
          · intro j d h
            rw [hstep] at h
            obtain ⟨A, B, C⟩ := (ih (i + 1) (some (i, cardCenterDist vh c))).2 j d h
            refine ⟨?_, ?_, ?_⟩
            · intro c2 hc2
              rcases List.mem_cons.mp hc2 with rfl | hc2
              · exact B i (cardCenterDist vh c2) rfl
              · exact A c2 hc2
            · intro j1 d1 hb
              obtain ⟨h1, h2⟩ := pair_some_inj hb
              rw [← h2]
              exact le_of_lt (lt_of_le_of_lt (B i (cardCenterDist vh c) rfl) hlt)
            · rcases C with hC | ⟨k, ck, hk, hj, hd⟩
              · obtain ⟨h1, h2⟩ := pair_some_inj hC
                refine Or.inr ⟨0, c, by simp, by omega, h2.symm⟩
              · refine Or.inr ⟨k + 1, ck, ?_, by omega, hd⟩
                rw [List.getElem?_cons_succ]; exact hk
        · rw [if_neg hlt] at hstep
          constructor
          · intro h
            rw [hstep] at h
            rcases (ih (i + 1) (some (j0, d0))).1 h with ⟨_, habs⟩
            exact absurd habs (by simp)
          · intro j d h
            rw [hstep] at h
            obtain ⟨A, B, C⟩ := (ih (i + 1) (some (j0, d0))).2 j d h
            refine ⟨?_, ?_, ?_⟩
            · intro c2 hc2
              rcases List.mem_cons.mp hc2 with rfl | hc2
              · exact le_trans (B j0 d0 rfl) (le_of_not_lt hlt)
              · exact A c2 hc2
            · intro j1 d1 hb
              obtain ⟨h1, h2⟩ := pair_some_inj hb
              rw [← h2]
              exact B j0 d0 rfl
            · rcases C with hC | ⟨k, ck, hk, hj, hd⟩
              · exact Or.inl hC
              · refine Or.inr ⟨k + 1, ck, ?_, by omega, hd⟩
                rw [List.getElem?_cons_succ]; exact hk

/-- **C10**  After every run of `updateCenteredCard`: the empty card list is
left untouched; the card count is preserved; and on a non-empty list there
is an index `j` — a card at minimal center-to-viewport-center distance —
such that the card at every position `k` ends with the `is-centered` class
iff `k = j` (so exactly one card carries it and it is removed from every
other card); and whenever some position holds a strictly unique nearest
card, `j` is that position.  This holds for arbitrary geometry, hence for
every scroll- or resize-triggered recomputation. -/
theorem updateCenteredCard_spec (vh : ℚ) (cards : List CenterCard) :
    (cards = [] → updateCenteredCard vh cards = cards)
    ∧ (updateCenteredCard vh cards).length = cards.length
    ∧ (cards ≠ [] → ∃ (j : Nat) (jc : CenterCard), cards[j]? = some jc
        ∧ (∀ k, (updateCenteredCard vh cards)[k]?
            = (cards[k]?).map (fun c : CenterCard => { c with centered := (j == k) }))
        ∧ (∀ c ∈ cards, cardCenterDist vh jc ≤ cardCenterDist vh c)
        ∧ (∀ k1 kc1, cards[k1]? = some kc1 →
            (∀ k2 kc2, cards[k2]? = some kc2 → k2 ≠ k1 →
              cardCenterDist vh kc1 < cardCenterDist vh kc2) → k1 = j)) := by
  refine ⟨?_, ?_, ?_⟩
  · intro h; rw [h]; rfl
  · rcases hc : cards with _ | ⟨c0, cs0⟩
    · rfl
    · simp [updateCenteredCard, length_markCentered]
  · intro hne
    cases hscan : scanClosest vh 0 none cards with
    | none => exact absurd ((scanClosest_spec vh cards 0 none).1 hscan).1 hne
    | some jd =>
        obtain ⟨j, d⟩ := jd
        obtain ⟨A, B, C⟩ := (scanClosest_spec vh cards 0 none).2 j d hscan
        rcases C with hC | ⟨k, ck, hk, hj, hd⟩
        · exact absurd hC (by simp)
        · have hjk : j = k := by omega
          subst hjk
          refine ⟨j, ck, hk, ?_, ?_, ?_⟩
          · intro k2
            have h1 : updateCenteredCard vh cards = markCentered (some j) 0 cards := by
              unfold updateCenteredCard
              rw [if_neg (by simp [List.isEmpty_iff, hne]), hscan]
              rfl
            rw [h1, getq_markCentered]
            cases cards[k2]? with
            | none => rfl
            | some c2 => simp only [Option.map_some', Nat.zero_add]; rfl
          · intro c2 hc2
            rw [← hd]
            exact A c2 hc2
          · intro k1 kc1 hk1 hstrict
            by_contra hne2
            have h1 : cardCenterDist vh kc1 < cardCenterDist vh ck :=
              hstrict j ck hk (fun hkk => hne2 hkk.symm)
            have h2 : cardCenterDist vh ck ≤ cardCenterDist vh kc1 := by
              rw [← hd]
              exact A kc1 (List.getElem?_mem hk1)
            linarith

/-- Witness for `updateCenteredCard_spec`: the empty-list clause discharged
at a concrete viewport height, plus the length clause on a two-card page. -/
theorem updateCenteredCard_spec_witness :
    updateCenteredCard 700 ([] : List CenterCard) = []
    ∧ (updateCenteredCard 1000
        [{ top := 0, height := 100, centered := true },
         { top := 400, height := 200, centered := false }]).length
      = ([{ top := 0, height := 100, centered := true },
          { top := 400, height := 200, centered := false }] : List CenterCard).length :=
  ⟨(updateCenteredCard_spec 700 []).1 rfl,
   (updateCenteredCard_spec 1000
      [{ top := 0, height := 100, centered := true },
       { top := 400, height := 200, centered := false }]).2.1⟩

end Portfolio
